/-
Verification of the solana-validator-rewards pipeline (src/main.py).

The embedding models the script's pure core over exact rational arithmetic:

* `pyRound` is Python's built-in `round` on the idealized real value
  (round to nearest, ties to even), `round_9` the script's `round_9`
  (`round(val * 1e9) / 1e9`).
* A raw upstream validator entry (`RawValidator`) records each JSON field as
  `Option (Option _)`: `none` is an absent key, `some none` a JSON `null`,
  `some (some x)` a value.  `validator.get(k, 0) or 0` is `getOrZero`,
  `validator.get(k, 0)` (without the `or 0`) is `getOrDefault0`.
* `deriveRecord` is the body of `get_epoch`'s per-validator branch,
  `get_epoch` the linear scan over an optional response
  (`none` models a failed request).
* The DuckDB state is a `Store`: the `rewards` and `missing_rewards` tables
  as append-only lists.  `check_epoch_exists` takes a flag that injects an
  internal query failure (the `except: return False` path).
* `runLoop`, `bulkInsert` and `runDriver` mirror `main`'s fetch loop, the
  final `executemany` batch insert and the fatal check on the current-epoch
  oracle result (`if not end_epoch`), with `driverEpochs` the processed
  range `range(600, (E - 1) + 1)`.  `export_csv` is the final filtered,
  epoch-ascending COPY of the rewards table.
-/
import Mathlib

/-- Python's `round` on an exact rational: nearest integer, ties to even. -/
def pyRound (q : ℚ) : ℤ :=
  if q - ⌊q⌋ < 1/2 then ⌊q⌋
  else if 1/2 < q - ⌊q⌋ then ⌊q⌋ + 1
  else if ⌊q⌋ % 2 = 0 then ⌊q⌋ else ⌊q⌋ + 1

/-- `round_9` of src/main.py: `round(val * 1000000000) / 1000000000`. -/
def round_9 (val : ℚ) : ℚ := (pyRound (val * 1000000000) : ℚ) / 1000000000

/-- One element of the rewards API's JSON array.  Each field is `none` when
the key is absent, `some none` when the value is `null`. -/
structure RawValidator where
  identity_pubkey : Option String
  name : Option (Option String)
  activated_stake : Option (Option ℚ)
  commission : Option (Option ℚ)
  mev_commission : Option (Option ℚ)
  rewards : Option (Option ℚ)
  mev_to_validator : Option (Option ℚ)
  total_inflation_reward : Option (Option ℚ)
  vote_cost : Option (Option ℚ)
  leader_slots : Option (Option ℚ)
  skip_rate : Option (Option ℚ)
  votes_cast : Option (Option ℚ)
  stake_percentage : Option (Option ℚ)
deriving DecidableEq

/-- `validator.get(k, 0) or 0`: absent and `null` (and falsy `0`) give `0`. -/
def getOrZero (f : Option (Option ℚ)) : ℚ := (f.getD (some 0)).getD 0

/-- `validator.get(k, 0)`: absent gives `0`, but `null` stays `None`. -/
def getOrDefault0 (f : Option (Option ℚ)) : Option ℚ := f.getD (some 0)

/-- One row of the `rewards` table (the dict built in `get_epoch`). -/
structure RewardRecord where
  epoch : ℤ
  name : Option String
  identity : String
  activated_stake : ℚ
  block_rewards : ℚ
  mev_to_validator : ℚ
  inflation_rewards : ℚ
  base_revenue : ℚ
  total_revenue : ℚ
  vote_cost : ℚ
  net_earnings : ℚ
  leader_slots : Option ℚ
  skip_rate : Option ℚ
  votes_cast : Option ℚ
  stake_percentage : Option ℚ
  commission_bps : ℚ
  mev_commission_bps : ℚ
deriving DecidableEq

/-- The body of `get_epoch`'s matching-validator branch in src/main.py:
the metric derivation for one raw entry. -/
def deriveRecord (epoch : ℤ) (v : RawValidator) : RewardRecord :=
  let commission_bps := getOrZero v.commission * 100
  let mev_commission_bps := getOrZero v.mev_commission
  let rewards := getOrZero v.rewards
  let mev_to_validator := getOrZero v.mev_to_validator
  let total_inflation_reward := getOrZero v.total_inflation_reward
  let vote_cost := getOrZero v.vote_cost
  let block_rewards := round_9 rewards
  let mev_to_validator_rounded := round_9 mev_to_validator
  let inflation_rewards := round_9 (total_inflation_reward * commission_bps / 10000)
  let base_revenue := round_9 (rewards + inflation_rewards)
  let total_revenue := round_9 (rewards + mev_to_validator + inflation_rewards)
  let vote_cost_rounded := round_9 vote_cost
  let net_earnings := round_9 (rewards + mev_to_validator + inflation_rewards - vote_cost)
  { epoch := epoch
    name := v.name.getD (some "")
    identity := v.identity_pubkey.getD ""
    activated_stake := getOrZero v.activated_stake
    block_rewards := block_rewards
    mev_to_validator := mev_to_validator_rounded
    inflation_rewards := inflation_rewards
    base_revenue := base_revenue
    total_revenue := total_revenue
    vote_cost := vote_cost_rounded
    net_earnings := net_earnings
    leader_slots := getOrDefault0 v.leader_slots
    skip_rate := getOrDefault0 v.skip_rate
    votes_cast := getOrDefault0 v.votes_cast
    stake_percentage := getOrDefault0 v.stake_percentage
    commission_bps := commission_bps
    mev_commission_bps := mev_commission_bps }

/-- `get_epoch` of src/main.py: `resp = none` models a failed request
(caught and turned into `None`); otherwise the first entry whose
`identity_pubkey` equals the requested identity is derived. -/
def get_epoch (identity : String) (epoch : ℤ) (resp : Option (List RawValidator)) :
    Option RewardRecord :=
  match resp with
  | none => none
  | some data =>
    match data.find? (fun v => decide (v.identity_pubkey = some identity)) with
    | some v => some (deriveRecord epoch v)
    | none => none

/-- The DuckDB file: the `rewards` and `missing_rewards` tables, as
append-only row lists. -/
structure Store where
  rewards : List RewardRecord
  missing : List (ℤ × String)
deriving DecidableEq

/-- The SQL body of `check_epoch_exists`: is a row for (identity, epoch)
present in the union of the two tables? -/
def epochExistsQuery (s : Store) (identity : String) (epoch : ℤ) : Bool :=
  s.rewards.any (fun r => decide (r.identity = identity) && decide (r.epoch = epoch))
  || s.missing.any (fun m => decide (m.2 = identity) && decide (m.1 = epoch))

/-- `check_epoch_exists` of src/main.py.  `queryFails` injects the
`except Exception: return False` path. -/
def check_epoch_exists (queryFails : Bool) (s : Store) (identity : String) (epoch : ℤ) :
    Bool :=
  if queryFails then false else epochExistsQuery s identity epoch

/-- The per-epoch loop of `main`: skip known epochs, accumulate fetched
records for the later batch insert, write missing markers immediately.
Returns (store after the loop, pending new records, epochs fetched). -/
def runLoop (identity : String) (resp : ℤ → Option (List RawValidator)) :
    List ℤ → Store → Store × List RewardRecord × List ℤ
  | [], s => (s, [], [])
  | epoch :: rest, s =>
    if check_epoch_exists false s identity epoch then
      runLoop identity resp rest s
    else
      match get_epoch identity epoch (resp epoch) with
      | some r =>
        let out := runLoop identity resp rest s
        (out.1, r :: out.2.1, epoch :: out.2.2)
      | none =>
        let out := runLoop identity resp rest
          (Store.mk s.rewards (s.missing ++ [(epoch, identity)]))
        (out.1, out.2.1, epoch :: out.2.2)

/-- The `executemany` batch insert of the accumulated new records. -/
def bulkInsert (s : Store) (recs : List RewardRecord) : Store :=
  Store.mk (s.rewards ++ recs) s.missing

/-- Python's `range(start, stop)` over integers, ascending. -/
def pyRange (start stop : ℤ) : List ℤ :=
  (List.range (stop - start).toNat).map (fun i : ℕ => start + (i : ℤ))

/-- The epoch list `main` iterates: `end_epoch -= 1` then
`range(600, end_epoch + 1)`. -/
def driverEpochs (e : ℤ) : List ℤ := pyRange 600 ((e - 1) + 1)

/-- `main` of src/main.py, given the oracle's current-epoch answer and the
rewards API's responses.  `if not end_epoch: raise` is fatal for an absent
answer and for the falsy integer `0`.  The successful result is the final
store together with the list of epochs that were fetched. -/
def runDriver (identity : String) (resp : ℤ → Option (List RawValidator))
    (currentEpoch : Option ℤ) (s : Store) : Except String (Store × List ℤ) :=
  match currentEpoch with
  | none => Except.error "Unable to determine current solana epoch"
  | some e =>
    if e = 0 then Except.error "Unable to determine current solana epoch"
    else
      let out := runLoop identity resp (driverEpochs e) s
      Except.ok (bulkInsert out.1 out.2.1, out.2.2)

/-- Sorted insertion by epoch, for the ORDER BY of the CSV export. -/
def insertByEpoch (r : RewardRecord) : List RewardRecord → List RewardRecord
  | [] => [r]
  | x :: xs => if r.epoch ≤ x.epoch then r :: x :: xs else x :: insertByEpoch r xs

/-- Insertion sort by epoch ascending. -/
def sortByEpoch (l : List RewardRecord) : List RewardRecord :=
  l.foldr insertByEpoch []

/-- The COPY statement: all rewards rows of the identity, epoch ascending. -/
def export_csv (s : Store) (identity : String) : List RewardRecord :=
  sortByEpoch (s.rewards.filter (fun r => decide (r.identity = identity)))

/-- A (epoch, identity) pair has a row in the rewards table. -/
def pairInRewards (s : Store) (identity : String) (epoch : ℤ) : Prop :=
  ∃ r ∈ s.rewards, r.identity = identity ∧ r.epoch = epoch

/-- A (epoch, identity) pair is resolved: present in either table. -/
def pairKnown (s : Store) (identity : String) (epoch : ℤ) : Prop :=
  pairInRewards s identity epoch ∨ (epoch, identity) ∈ s.missing

/-- Neither table holds a duplicate (epoch, identity) row. -/
def noDupPairs (s : Store) : Prop :=
  (s.rewards.map (fun r => (r.epoch, r.identity))).Nodup ∧ s.missing.Nodup

/-- No (epoch, identity) pair is in both tables at once. -/
def mutexInv (s : Store) : Prop :=
  ∀ epoch identity, pairInRewards s identity epoch → (epoch, identity) ∉ s.missing

/-- The inputs of one invocation of the driver. -/
structure RunParams where
  identity : String
  responses : ℤ → Option (List RawValidator)
  currentEpoch : Option ℤ

/-- One driver invocation as a store transformer; a fatal run leaves the
store untouched. -/
def applyRun (s : Store) (p : RunParams) : Store :=
  match runDriver p.identity p.responses p.currentEpoch s with
  | Except.ok out => out.1
  | Except.error _ => s

/-- The round-half-away-from-zero reading of the spec, stated from the
spec's words for comparison with the implemented `round_9`. -/
def roundHalfAway (q : ℚ) : ℤ :=
  if 0 ≤ q then ⌊q + 1/2⌋ else ⌈q - 1/2⌉

/-- Modelled from the spec: `round9(v) = round_half_away_from_zero(v * 1e9) / 1e9`. -/
def round9_away (val : ℚ) : ℚ := (roundHalfAway (val * 1000000000) : ℚ) / 1000000000

lemma pyRound_intCast (n : ℤ) : pyRound (n : ℚ) = n := by
  unfold pyRound
  rw [Int.floor_intCast]
  norm_num

lemma round_9_int_div (n : ℤ) :
    round_9 ((n : ℚ) / 1000000000) = (n : ℚ) / 1000000000 := by
  unfold round_9
  rw [div_mul_cancel₀ _ (by norm_num : (1000000000 : ℚ) ≠ 0), pyRound_intCast]

lemma round_9_fixed {x : ℚ} (h : ∃ k : ℤ, x = (k : ℚ) / 1000000000) :
    round_9 x = x := by
  obtain ⟨k, rfl⟩ := h
  exact round_9_int_div k

lemma round_9_form (x : ℚ) : ∃ m : ℤ, round_9 x = (m : ℚ) / 1000000000 :=
  ⟨pyRound (x * 1000000000), rfl⟩

lemma grid_add {x y : ℚ} (hx : ∃ k : ℤ, x = (k : ℚ) / 1000000000)
    (hy : ∃ k : ℤ, y = (k : ℚ) / 1000000000) :
    ∃ k : ℤ, x + y = (k : ℚ) / 1000000000 := by
  obtain ⟨a, rfl⟩ := hx
  obtain ⟨b, rfl⟩ := hy
  exact ⟨a + b, by push_cast; ring⟩

lemma grid_sub {x y : ℚ} (hx : ∃ k : ℤ, x = (k : ℚ) / 1000000000)
    (hy : ∃ k : ℤ, y = (k : ℚ) / 1000000000) :
    ∃ k : ℤ, x - y = (k : ℚ) / 1000000000 := by
  obtain ⟨a, rfl⟩ := hx
  obtain ⟨b, rfl⟩ := hy
  exact ⟨a - b, by push_cast; ring⟩

lemma round_9_intCast (n : ℤ) : round_9 (n : ℚ) = (n : ℚ) := by
  apply round_9_fixed
  exact ⟨n * 1000000000, by push_cast; ring⟩

lemma round_9_eval_lt (x : ℚ) (f : ℤ) (y : ℚ) (h1 : (f : ℚ) ≤ x * 1000000000)
    (h2 : x * 1000000000 < (f : ℚ) + 1/2) (h3 : (f : ℚ) / 1000000000 = y) :
    round_9 x = y := by
  have hf : ⌊x * 1000000000⌋ = f := Int.floor_eq_iff.mpr ⟨h1, by linarith⟩
  unfold round_9 pyRound
  rw [hf, if_pos (by linarith : x * 1000000000 - (f : ℚ) < 1/2)]
  exact h3

lemma round_9_eval_gt (x : ℚ) (f : ℤ) (y : ℚ) (h1 : (f : ℚ) + 1/2 < x * 1000000000)
    (h2 : x * 1000000000 < (f : ℚ) + 1) (h3 : ((f : ℚ) + 1) / 1000000000 = y) :
    round_9 x = y := by
  have hf : ⌊x * 1000000000⌋ = f := Int.floor_eq_iff.mpr ⟨by linarith, h2⟩
  unfold round_9 pyRound
  rw [hf, if_neg (by linarith : ¬ x * 1000000000 - (f : ℚ) < 1/2),
    if_pos (by linarith : (1 : ℚ)/2 < x * 1000000000 - (f : ℚ))]
  push_cast
  exact h3

lemma round_9_eval_tie_even (x : ℚ) (f : ℤ) (y : ℚ)
    (h1 : x * 1000000000 - (f : ℚ) = 1/2) (h2 : f % 2 = 0)
    (h3 : (f : ℚ) / 1000000000 = y) : round_9 x = y := by
  have hf : ⌊x * 1000000000⌋ = f := Int.floor_eq_iff.mpr ⟨by linarith, by linarith⟩
  unfold round_9 pyRound
  rw [hf, if_neg (by linarith : ¬ x * 1000000000 - (f : ℚ) < 1/2),
    if_neg (by linarith : ¬ (1 : ℚ)/2 < x * 1000000000 - (f : ℚ)), if_pos h2]
  exact h3

def vC5 : RawValidator :=
  { identity_pubkey := some "ABC123"
    name := none
    activated_stake := none
    commission := some (some 5)
    mev_commission := none
    rewards := some (some 1000000000)
    mev_to_validator := some (some 50000000)
    total_inflation_reward := some (some 2000000000)
    vote_cost := some (some 10000000)
    leader_slots := none
    skip_rate := none
    votes_cast := none
    stake_percentage := none }

/-- C5: the worked example payload derives commission_bps=500, inflation_rewards=1e8, base_revenue=1.1e9, total_revenue=1.15e9, net_earnings=1.14e9. -/
theorem example_payload_derivation :
    get_epoch "ABC123" 600 (some [vC5]) = some (deriveRecord 600 vC5)
    ∧ (deriveRecord 600 vC5).commission_bps = 500
    ∧ (deriveRecord 600 vC5).inflation_rewards = 100000000
    ∧ (deriveRecord 600 vC5).base_revenue = 1100000000
    ∧ (deriveRecord 600 vC5).total_revenue = 1150000000
    ∧ (deriveRecord 600 vC5).net_earnings = 1140000000 := by
  have hfind : get_epoch "ABC123" 600 (some [vC5]) = some (deriveRecord 600 vC5) := by
    simp [get_epoch, vC5]
  have hinfval : round_9 ((2000000000 : ℚ) * ((5 : ℚ) * 100) / 10000) = (100000000 : ℚ) :=
    round_9_eval_lt _ 100000000000000000 _ (by norm_num) (by norm_num) (by norm_num)
  have hcomm : (deriveRecord 600 vC5).commission_bps = (5 : ℚ) * 100 := rfl
  have hinf : (deriveRecord 600 vC5).inflation_rewards
      = round_9 ((2000000000 : ℚ) * ((5 : ℚ) * 100) / 10000) := rfl
  have hbase : (deriveRecord 600 vC5).base_revenue
      = round_9 ((1000000000 : ℚ)
          + round_9 ((2000000000 : ℚ) * ((5 : ℚ) * 100) / 10000)) := rfl
  have htot : (deriveRecord 600 vC5).total_revenue
      = round_9 ((1000000000 : ℚ) + (50000000 : ℚ)
          + round_9 ((2000000000 : ℚ) * ((5 : ℚ) * 100) / 10000)) := rfl
  have hnet : (deriveRecord 600 vC5).net_earnings
      = round_9 ((1000000000 : ℚ) + (50000000 : ℚ)
          + round_9 ((2000000000 : ℚ) * ((5 : ℚ) * 100) / 10000) - (10000000 : ℚ)) := rfl
  rw [hinfval] at hbase htot hnet
  rw [round_9_eval_lt _ 1100000000000000000 1100000000 (by norm_num) (by norm_num) (by norm_num)]
    at hbase
  rw [round_9_eval_lt _ 1150000000000000000 1150000000 (by norm_num) (by norm_num) (by norm_num)]
    at htot
  rw [round_9_eval_lt _ 1140000000000000000 1140000000 (by norm_num) (by norm_num) (by norm_num)]
    at hnet
  refine ⟨hfind, ?_, ?_, hbase, htot, hnet⟩
  · rw [hcomm]; norm_num
  · rw [hinf, hinfval]

lemma pyRound_nearest (q : ℚ) : |q - (pyRound q : ℚ)| ≤ 1/2 := by
  have h1 : ((⌊q⌋ : ℤ) : ℚ) ≤ q := Int.floor_le q
  have h2 : q < (⌊q⌋ : ℚ) + 1 := Int.lt_floor_add_one q
  unfold pyRound
  split_ifs with ha hb hc
  · rw [abs_of_nonneg (by linarith)]
    linarith
  · rw [abs_of_nonpos (by push_cast; linarith)]
    push_cast
    linarith
  · rw [abs_of_nonneg (by linarith)]
    linarith
  · rw [abs_of_nonpos (by push_cast; linarith)]
    push_cast
    linarith

lemma pyRound_tie_even (q : ℚ) : |q - (pyRound q : ℚ)| < 1/2 ∨ pyRound q % 2 = 0 := by
  have h1 : ((⌊q⌋ : ℤ) : ℚ) ≤ q := Int.floor_le q
  have h2 : q < (⌊q⌋ : ℚ) + 1 := Int.lt_floor_add_one q
  unfold pyRound
  split_ifs with ha hb hc
  · left
    rw [abs_of_nonneg (by linarith)]
    linarith
  · left
    rw [abs_of_nonpos (by push_cast; linarith)]
    push_cast
    linarith
  · right
    exact hc
  · right
    omega

def vFrac : RawValidator :=
  { identity_pubkey := some "CEX1"
    name := none
    activated_stake := none
    commission := none
    mev_commission := none
    rewards := some (some (3/10000000000))
    mev_to_validator := some (some (3/10000000000))
    total_inflation_reward := none
    vote_cost := none
    leader_slots := none
    skip_rate := none
    votes_cast := none
    stake_percentage := none }

/-- C1 counterexample: for a payload with rewards = mev_to_validator = 3e-10, the stored total_revenue (1e-9) differs from round9 of the row of already-rounded fields base_revenue + mev_to_validator (0). -/
theorem total_revenue_chain_counterexample :
    (deriveRecord 600 vFrac).total_revenue
      ≠ round_9 ((deriveRecord 600 vFrac).base_revenue
          + (deriveRecord 600 vFrac).mev_to_validator) := by
  have hz : round_9 ((0 : ℚ) * ((0 : ℚ) * 100) / 10000) = (0 : ℚ) :=
    round_9_eval_lt _ 0 0 (by norm_num) (by norm_num) (by norm_num)
  have htot : (deriveRecord 600 vFrac).total_revenue
      = round_9 ((3/10000000000 : ℚ) + (3/10000000000 : ℚ)
          + round_9 ((0 : ℚ) * ((0 : ℚ) * 100) / 10000)) := rfl
  rw [hz] at htot
  rw [round_9_eval_gt _ 0 (1/1000000000) (by norm_num) (by norm_num) (by norm_num)] at htot
  have hbase : (deriveRecord 600 vFrac).base_revenue
      = round_9 ((3/10000000000 : ℚ) + round_9 ((0 : ℚ) * ((0 : ℚ) * 100) / 10000)) := rfl
  rw [hz] at hbase
  rw [round_9_eval_lt _ 0 0 (by norm_num) (by norm_num) (by norm_num)] at hbase
  have hmev : (deriveRecord 600 vFrac).mev_to_validator
      = round_9 ((3/10000000000 : ℚ)) := rfl
  rw [round_9_eval_lt _ 0 0 (by norm_num) (by norm_num) (by norm_num)] at hmev
  rw [htot, hbase, hmev, round_9_eval_lt _ 0 0 (by norm_num) (by norm_num) (by norm_num)]
  norm_num

/-- C1 amended: the chained invariants over the row of stored (already-rounded) fields hold whenever the raw rewards, mev_to_validator and vote_cost are integer multiples of 1e-9; in general the code rounds sums of raw inputs instead. -/
theorem derived_field_chain_lamport_grained (epoch : ℤ) (v : RawValidator)
    (h1 : ∃ k : ℤ, getOrZero v.rewards = (k : ℚ) / 1000000000)
    (h2 : ∃ k : ℤ, getOrZero v.mev_to_validator = (k : ℚ) / 1000000000)
    (h3 : ∃ k : ℤ, getOrZero v.vote_cost = (k : ℚ) / 1000000000) :
    (deriveRecord epoch v).base_revenue
      = round_9 ((deriveRecord epoch v).block_rewards
          + (deriveRecord epoch v).inflation_rewards)
    ∧ (deriveRecord epoch v).total_revenue
      = round_9 ((deriveRecord epoch v).base_revenue
          + (deriveRecord epoch v).mev_to_validator)
    ∧ (deriveRecord epoch v).net_earnings
      = round_9 ((deriveRecord epoch v).total_revenue
          - (deriveRecord epoch v).vote_cost) := by
  have hIg : ∃ k : ℤ, round_9 (getOrZero v.total_inflation_reward
      * (getOrZero v.commission * 100) / 10000) = (k : ℚ) / 1000000000 :=
    round_9_form _
  have hfr : round_9 (getOrZero v.rewards) = getOrZero v.rewards := round_9_fixed h1
  have hfm : round_9 (getOrZero v.mev_to_validator) = getOrZero v.mev_to_validator :=
    round_9_fixed h2
  have hfv : round_9 (getOrZero v.vote_cost) = getOrZero v.vote_cost := round_9_fixed h3
  have hbr : (deriveRecord epoch v).block_rewards = round_9 (getOrZero v.rewards) := rfl
  have hmev : (deriveRecord epoch v).mev_to_validator
      = round_9 (getOrZero v.mev_to_validator) := rfl
  have hvc : (deriveRecord epoch v).vote_cost = round_9 (getOrZero v.vote_cost) := rfl
  have hinf : (deriveRecord epoch v).inflation_rewards
      = round_9 (getOrZero v.total_inflation_reward
          * (getOrZero v.commission * 100) / 10000) := rfl
  have hbase : (deriveRecord epoch v).base_revenue
      = round_9 (getOrZero v.rewards
          + round_9 (getOrZero v.total_inflation_reward
              * (getOrZero v.commission * 100) / 10000)) := rfl
  have htot : (deriveRecord epoch v).total_revenue
      = round_9 (getOrZero v.rewards + getOrZero v.mev_to_validator
          + round_9 (getOrZero v.total_inflation_reward
              * (getOrZero v.commission * 100) / 10000)) := rfl
  have hnet : (deriveRecord epoch v).net_earnings
      = round_9 (getOrZero v.rewards + getOrZero v.mev_to_validator
          + round_9 (getOrZero v.total_inflation_reward
              * (getOrZero v.commission * 100) / 10000)
          - getOrZero v.vote_cost) := rfl
  have hbase_val : (deriveRecord epoch v).base_revenue
      = getOrZero v.rewards
        + round_9 (getOrZero v.total_inflation_reward
            * (getOrZero v.commission * 100) / 10000) := by
    rw [hbase]
    exact round_9_fixed (grid_add h1 hIg)
  have htot_val : (deriveRecord epoch v).total_revenue
      = getOrZero v.rewards + getOrZero v.mev_to_validator
        + round_9 (getOrZero v.total_inflation_reward
            * (getOrZero v.commission * 100) / 10000) := by
    rw [htot]
    exact round_9_fixed (grid_add (grid_add h1 h2) hIg)
  have hnet_val : (deriveRecord epoch v).net_earnings
      = getOrZero v.rewards + getOrZero v.mev_to_validator
        + round_9 (getOrZero v.total_inflation_reward
            * (getOrZero v.commission * 100) / 10000)
        - getOrZero v.vote_cost := by
    rw [hnet]
    exact round_9_fixed (grid_sub (grid_add (grid_add h1 h2) hIg) h3)
  refine ⟨?_, ?_, ?_⟩
  · rw [hbase_val, hbr, hinf, hfr]
    exact (round_9_fixed (grid_add h1 hIg)).symm
  · rw [htot_val, hbase_val, hmev, hfm]
    rw [round_9_fixed (grid_add (grid_add h1 hIg) h2)]
    ring
  · rw [hnet_val, htot_val, hvc, hfv]
    rw [round_9_fixed (grid_sub (grid_add (grid_add h1 h2) hIg) h3)]

def vGrain : RawValidator :=
  { identity_pubkey := some "W1"
    name := none
    activated_stake := none
    commission := some (some 5)
    mev_commission := none
    rewards := some (some 1)
    mev_to_validator := some (some 2)
    total_inflation_reward := some (some 7)
    vote_cost := some (some 3)
    leader_slots := none
    skip_rate := none
    votes_cast := none
    stake_percentage := none }

/-- C1 witness: the amended chain invariants at a concrete integer-valued payload. -/
theorem derived_field_chain_lamport_grained_witness :
    (deriveRecord 600 vGrain).base_revenue
      = round_9 ((deriveRecord 600 vGrain).block_rewards
          + (deriveRecord 600 vGrain).inflation_rewards)
    ∧ (deriveRecord 600 vGrain).total_revenue
      = round_9 ((deriveRecord 600 vGrain).base_revenue
          + (deriveRecord 600 vGrain).mev_to_validator)
    ∧ (deriveRecord 600 vGrain).net_earnings
      = round_9 ((deriveRecord 600 vGrain).total_revenue
          - (deriveRecord 600 vGrain).vote_cost) :=
  derived_field_chain_lamport_grained 600 vGrain
    ⟨1000000000, by norm_num [vGrain, getOrZero]⟩
    ⟨2000000000, by norm_num [vGrain, getOrZero]⟩
    ⟨3000000000, by norm_num [vGrain, getOrZero]⟩

def vHalf : RawValidator :=
  { identity_pubkey := some "CEX2"
    name := none
    activated_stake := none
    commission := none
    mev_commission := none
    rewards := some (some (1/2000000000))
    mev_to_validator := none
    total_inflation_reward := none
    vote_cost := none
    leader_slots := none
    skip_rate := none
    votes_cast := none
    stake_percentage := none }

/-- C6 counterexample: at rewards = 0.5e-9 the code stores block_rewards = 0 (ties to even) while round-half-away-from-zero at scale 1e9 yields 1e-9. -/
theorem round9_not_half_away_counterexample :
    (deriveRecord 600 vHalf).block_rewards = 0
    ∧ round9_away (getOrZero vHalf.rewards) = 1/1000000000
    ∧ (deriveRecord 600 vHalf).block_rewards
        ≠ round9_away (getOrZero vHalf.rewards) := by
  have h1 : (deriveRecord 600 vHalf).block_rewards = round_9 ((1/2000000000 : ℚ)) := rfl
  rw [round_9_eval_tie_even _ 0 0 (by norm_num) (by norm_num) (by norm_num)] at h1
  have h2 : round9_away (getOrZero vHalf.rewards) = 1/1000000000 := by
    have hv : getOrZero vHalf.rewards = (1/2000000000 : ℚ) := rfl
    rw [hv]
    unfold round9_away roundHalfAway
    rw [if_pos (by norm_num : (0 : ℚ) ≤ (1/2000000000 : ℚ) * 1000000000)]
    rw [show ⌊(1/2000000000 : ℚ) * 1000000000 + 1/2⌋ = 1 from
      Int.floor_eq_iff.mpr ⟨by norm_num, by norm_num⟩]
    norm_num
  refine ⟨h1, h2, ?_⟩
  rw [h1, h2]
  norm_num

/-- C6 amended: every derived monetary field is round_9 of its raw-input formula (inflation_rewards from the raw total_inflation_reward times the raw commission transform, before rounding), applied independently per field, where round_9 rounds at scale 1e9 to the nearest integer with ties to even (Python round), not away from zero. -/
theorem round9_half_even_per_field (epoch : ℤ) (v : RawValidator) :
    ((deriveRecord epoch v).block_rewards = round_9 (getOrZero v.rewards)
      ∧ (deriveRecord epoch v).mev_to_validator = round_9 (getOrZero v.mev_to_validator)
      ∧ (deriveRecord epoch v).inflation_rewards
          = round_9 (getOrZero v.total_inflation_reward
              * (getOrZero v.commission * 100) / 10000)
      ∧ (deriveRecord epoch v).vote_cost = round_9 (getOrZero v.vote_cost)
      ∧ (deriveRecord epoch v).base_revenue
          = round_9 (getOrZero v.rewards + (deriveRecord epoch v).inflation_rewards)
      ∧ (deriveRecord epoch v).total_revenue
          = round_9 (getOrZero v.rewards + getOrZero v.mev_to_validator
              + (deriveRecord epoch v).inflation_rewards)
      ∧ (deriveRecord epoch v).net_earnings
          = round_9 (getOrZero v.rewards + getOrZero v.mev_to_validator
              + (deriveRecord epoch v).inflation_rewards - getOrZero v.vote_cost))
    ∧ (∀ x : ℚ, round_9 x = (pyRound (x * 1000000000) : ℚ) / 1000000000
        ∧ |x * 1000000000 - (pyRound (x * 1000000000) : ℚ)| ≤ 1/2
        ∧ (|x * 1000000000 - (pyRound (x * 1000000000) : ℚ)| < 1/2
            ∨ pyRound (x * 1000000000) % 2 = 0)) := by
  refine ⟨⟨rfl, rfl, rfl, rfl, rfl, rfl, rfl⟩, fun x => ⟨rfl, ?_, ?_⟩⟩
  · exact pyRound_nearest (x * 1000000000)
  · exact pyRound_tie_even (x * 1000000000)

def vNull : RawValidator :=
  { identity_pubkey := some "CEX3"
    name := none
    activated_stake := none
    commission := none
    mev_commission := none
    rewards := none
    mev_to_validator := none
    total_inflation_reward := none
    vote_cost := none
    leader_slots := some none
    skip_rate := none
    votes_cast := none
    stake_percentage := none }

/-- C7 counterexample: a payload whose leader_slots is JSON null derives a record with leader_slots null, not the record the zero value would give. -/
theorem null_leader_slots_counterexample :
    (deriveRecord 600 vNull).leader_slots = none
    ∧ (deriveRecord 600 { vNull with leader_slots := some (some 0) }).leader_slots = some 0
    ∧ (deriveRecord 600 vNull).leader_slots
        ≠ (deriveRecord 600 { vNull with leader_slots := some (some 0) }).leader_slots := by
  refine ⟨rfl, rfl, ?_⟩
  show (none : Option ℚ) ≠ some 0
  exact fun h => Option.noConfusion h

/-- C7 amended: for rewards, mev_to_validator, total_inflation_reward, vote_cost, commission, mev_commission and activated_stake both a missing key and a null value derive the record as if the field were zero; for leader_slots, skip_rate, votes_cast and stake_percentage only a missing key defaults to zero, a null value is stored as null. -/
theorem missing_null_field_defaults (epoch : ℤ) (v : RawValidator) :
    ((deriveRecord epoch { v with rewards := none }
        = deriveRecord epoch { v with rewards := some (some 0) }
      ∧ deriveRecord epoch { v with rewards := some none }
        = deriveRecord epoch { v with rewards := some (some 0) })
    ∧ (deriveRecord epoch { v with mev_to_validator := none }
        = deriveRecord epoch { v with mev_to_validator := some (some 0) }
      ∧ deriveRecord epoch { v with mev_to_validator := some none }
        = deriveRecord epoch { v with mev_to_validator := some (some 0) })
    ∧ (deriveRecord epoch { v with total_inflation_reward := none }
        = deriveRecord epoch { v with total_inflation_reward := some (some 0) }
      ∧ deriveRecord epoch { v with total_inflation_reward := some none }
        = deriveRecord epoch { v with total_inflation_reward := some (some 0) })
    ∧ (deriveRecord epoch { v with vote_cost := none }
        = deriveRecord epoch { v with vote_cost := some (some 0) }
      ∧ deriveRecord epoch { v with vote_cost := some none }
        = deriveRecord epoch { v with vote_cost := some (some 0) })
    ∧ (deriveRecord epoch { v with commission := none }
        = deriveRecord epoch { v with commission := some (some 0) }
      ∧ deriveRecord epoch { v with commission := some none }
        = deriveRecord epoch { v with commission := some (some 0) })
    ∧ (deriveRecord epoch { v with mev_commission := none }
        = deriveRecord epoch { v with mev_commission := some (some 0) }
      ∧ deriveRecord epoch { v with mev_commission := some none }
        = deriveRecord epoch { v with mev_commission := some (some 0) })
    ∧ (deriveRecord epoch { v with activated_stake := none }
        = deriveRecord epoch { v with activated_stake := some (some 0) }
      ∧ deriveRecord epoch { v with activated_stake := some none }
        = deriveRecord epoch { v with activated_stake := some (some 0) }))
    ∧ ((deriveRecord epoch { v with leader_slots := none }
        = deriveRecord epoch { v with leader_slots := some (some 0) }
      ∧ (deriveRecord epoch { v with leader_slots := some none }).leader_slots = none)
    ∧ (deriveRecord epoch { v with skip_rate := none }
        = deriveRecord epoch { v with skip_rate := some (some 0) }
      ∧ (deriveRecord epoch { v with skip_rate := some none }).skip_rate = none)
    ∧ (deriveRecord epoch { v with votes_cast := none }
        = deriveRecord epoch { v with votes_cast := some (some 0) }
      ∧ (deriveRecord epoch { v with votes_cast := some none }).votes_cast = none)
    ∧ (deriveRecord epoch { v with stake_percentage := none }
        = deriveRecord epoch { v with stake_percentage := some (some 0) }
      ∧ (deriveRecord epoch { v with stake_percentage := some none }).stake_percentage
          = none)) :=
  ⟨⟨⟨rfl, rfl⟩, ⟨rfl, rfl⟩, ⟨rfl, rfl⟩, ⟨rfl, rfl⟩, ⟨rfl, rfl⟩, ⟨rfl, rfl⟩, ⟨rfl, rfl⟩⟩,
   ⟨⟨rfl, rfl⟩, ⟨rfl, rfl⟩, ⟨rfl, rfl⟩, ⟨rfl, rfl⟩⟩⟩

/-- C10: mev_commission_bps is stored as the raw upstream mev_commission with no scaling (unlike commission_bps, which is commission * 100), and a missing or null mev_commission is stored as 0. -/
theorem mev_commission_bps_unscaled (epoch : ℤ) (v : RawValidator) (q : ℚ) :
    (deriveRecord epoch v).mev_commission_bps = getOrZero v.mev_commission
    ∧ (deriveRecord epoch v).commission_bps = getOrZero v.commission * 100
    ∧ (v.mev_commission = some (some q)
        → (deriveRecord epoch v).mev_commission_bps = q)
    ∧ (v.mev_commission = none ∨ v.mev_commission = some none
        → (deriveRecord epoch v).mev_commission_bps = 0) := by
  refine ⟨rfl, rfl, ?_, ?_⟩
  · intro h
    show getOrZero v.mev_commission = q
    rw [h]
    rfl
  · intro h
    show getOrZero v.mev_commission = 0
    rcases h with h | h <;> rw [h] <;> rfl

lemma epochExistsQuery_iff (s : Store) (identity : String) (epoch : ℤ) :
    epochExistsQuery s identity epoch = true ↔ pairKnown s identity epoch := by
  unfold epochExistsQuery pairKnown pairInRewards
  simp only [Bool.or_eq_true, List.any_eq_true, Bool.and_eq_true, decide_eq_true_eq]
  apply or_congr
  · exact Iff.rfl
  · constructor
    · rintro ⟨⟨e', i'⟩, hm, h2, h1⟩
      simp only at h1 h2
      subst h1
      subst h2
      exact hm
    · intro h
      exact ⟨(epoch, identity), h, rfl, rfl⟩

lemma check_false_iff (s : Store) (identity : String) (epoch : ℤ) :
    check_epoch_exists false s identity epoch = false ↔ ¬ pairKnown s identity epoch := by
  have h : check_epoch_exists false s identity epoch = epochExistsQuery s identity epoch := rfl
  rw [h, ← epochExistsQuery_iff]
  simp

lemma check_true_known (s : Store) (identity : String) (epoch : ℤ)
    (h : check_epoch_exists false s identity epoch = true) : pairKnown s identity epoch := by
  have he : check_epoch_exists false s identity epoch = epochExistsQuery s identity epoch := rfl
  rw [he] at h
  exact (epochExistsQuery_iff s identity epoch).mp h

lemma pairKnown_of_mem {R R' : List RewardRecord} {M M' : List (ℤ × String)}
    {identity : String} {epoch : ℤ}
    (hr : ∀ x ∈ R, x ∈ R') (hm : ∀ p ∈ M, p ∈ M') :
    pairKnown (Store.mk R M) identity epoch → pairKnown (Store.mk R' M') identity epoch := by
  rintro (⟨r, hr0, h1, h2⟩ | h)
  · exact Or.inl ⟨r, hr r hr0, h1, h2⟩
  · exact Or.inr (hm _ h)

lemma get_epoch_some {identity : String} {epoch : ℤ} {resp : Option (List RawValidator)}
    {r : RewardRecord} (h : get_epoch identity epoch resp = some r) :
    r.identity = identity ∧ r.epoch = epoch := by
  rcases resp with _ | data
  · exact Option.noConfusion h
  · have h' : (match data.find? (fun v => decide (v.identity_pubkey = some identity)) with
        | some v => some (deriveRecord epoch v)
        | none => none) = some r := h
    rcases hf : data.find? (fun v => decide (v.identity_pubkey = some identity)) with _ | v
    · rw [hf] at h'
      exact Option.noConfusion h'
    · rw [hf] at h'
      have hv := List.find?_some hf
      rw [decide_eq_true_eq] at hv
      cases h'
      refine ⟨?_, rfl⟩
      show v.identity_pubkey.getD "" = identity
      rw [hv]
      rfl

lemma runLoop_cons_known (identity : String) (resp : ℤ → Option (List RawValidator))
    (epoch : ℤ) (rest : List ℤ) (s : Store)
    (hc : check_epoch_exists false s identity epoch = true) :
    runLoop identity resp (epoch :: rest) s = runLoop identity resp rest s := by
  simp only [runLoop, hc, if_true]

lemma runLoop_cons_some (identity : String) (resp : ℤ → Option (List RawValidator))
    (epoch : ℤ) (rest : List ℤ) (s : Store) (r : RewardRecord)
    (hc : check_epoch_exists false s identity epoch = false)
    (hg : get_epoch identity epoch (resp epoch) = some r) :
    runLoop identity resp (epoch :: rest) s
      = ((runLoop identity resp rest s).1, r :: (runLoop identity resp rest s).2.1,
         epoch :: (runLoop identity resp rest s).2.2) := by
  simp only [runLoop, hc, hg, Bool.false_eq_true, if_false]

lemma runLoop_cons_none (identity : String) (resp : ℤ → Option (List RawValidator))
    (epoch : ℤ) (rest : List ℤ) (s : Store)
    (hc : check_epoch_exists false s identity epoch = false)
    (hg : get_epoch identity epoch (resp epoch) = none) :
    runLoop identity resp (epoch :: rest) s
      = ((runLoop identity resp rest (Store.mk s.rewards (s.missing ++ [(epoch, identity)]))).1,
         (runLoop identity resp rest (Store.mk s.rewards (s.missing ++ [(epoch, identity)]))).2.1,
         epoch :: (runLoop identity resp rest
           (Store.mk s.rewards (s.missing ++ [(epoch, identity)]))).2.2) := by
  simp only [runLoop, hc, hg, Bool.false_eq_true, if_false]


lemma runLoop_spec (identity : String) (resp : ℤ → Option (List RawValidator)) :
    ∀ (epochs : List ℤ) (s : Store),
    ∃ t : List (ℤ × String),
      (runLoop identity resp epochs s).1.rewards = s.rewards
      ∧ (runLoop identity resp epochs s).1.missing = s.missing ++ t
      ∧ (∀ p ∈ t, p.2 = identity ∧ p.1 ∈ epochs ∧ ¬ pairKnown s identity p.1)
      ∧ (∀ r ∈ (runLoop identity resp epochs s).2.1,
          r.identity = identity ∧ r.epoch ∈ epochs ∧ ¬ pairKnown s identity r.epoch)
      ∧ (∀ e ∈ (runLoop identity resp epochs s).2.2, e ∈ epochs)
      ∧ (∀ e ∈ epochs,
          pairKnown (Store.mk (s.rewards ++ (runLoop identity resp epochs s).2.1)
            (s.missing ++ t)) identity e)
      ∧ (epochs.Nodup →
          ((runLoop identity resp epochs s).2.1.map (fun r => r.epoch)).Nodup
          ∧ (t.map (fun p => p.1)).Nodup
          ∧ ∀ e, e ∈ ((runLoop identity resp epochs s).2.1.map (fun r => r.epoch))
              → e ∈ (t.map (fun p => p.1)) → False) := by
  intro epochs
  induction epochs with
  | nil =>
    intro s
    refine ⟨[], rfl, by simp [runLoop], by simp, by simp [runLoop], by simp [runLoop],
      by simp, fun _ => ⟨by simp [runLoop], by simp, by simp [runLoop]⟩⟩
  | cons epoch rest ih =>
    intro s
    by_cases hc : check_epoch_exists false s identity epoch = true
    · -- already known: skip
      have heq := runLoop_cons_known identity resp epoch rest s hc
      obtain ⟨t, h1, h2, h3, h4, h5, h6, h7⟩ := ih s
      have hk : pairKnown s identity epoch := check_true_known s identity epoch hc
      refine ⟨t, by rw [heq]; exact h1, by rw [heq]; exact h2, ?_, ?_, ?_, ?_, ?_⟩
      · intro p hp
        obtain ⟨hp1, hp2, hp3⟩ := h3 p hp
        exact ⟨hp1, List.mem_cons_of_mem _ hp2, hp3⟩
      · rw [heq]
        intro r hr
        obtain ⟨hp1, hp2, hp3⟩ := h4 r hr
        exact ⟨hp1, List.mem_cons_of_mem _ hp2, hp3⟩
      · rw [heq]
        intro e he
        exact List.mem_cons_of_mem _ (h5 e he)
      · rw [heq]
        intro e he
        rcases List.mem_cons.mp he with rfl | he'
        · refine pairKnown_of_mem ?_ ?_ hk
          · exact fun x hx => List.mem_append_left _ hx
          · exact fun p hp => List.mem_append_left _ hp
        · exact h6 e he'
      · rw [heq]
        intro hnd
        exact h7 (List.Nodup.of_cons hnd)
    · -- not yet known
      rw [Bool.not_eq_true] at hc
      have hnk : ¬ pairKnown s identity epoch := (check_false_iff s identity epoch).mp hc
      rcases hg : get_epoch identity epoch (resp epoch) with _ | r
      · -- fetch failed: missing marker written immediately
        have heq := runLoop_cons_none identity resp epoch rest s hc hg
        have e1 : (runLoop identity resp (epoch :: rest) s).1
            = (runLoop identity resp rest
                (Store.mk s.rewards (s.missing ++ [(epoch, identity)]))).1 := by rw [heq]
        have e2 : (runLoop identity resp (epoch :: rest) s).2.1
            = (runLoop identity resp rest
                (Store.mk s.rewards (s.missing ++ [(epoch, identity)]))).2.1 := by rw [heq]
        have e3 : (runLoop identity resp (epoch :: rest) s).2.2
            = epoch :: (runLoop identity resp rest
                (Store.mk s.rewards (s.missing ++ [(epoch, identity)]))).2.2 := by rw [heq]
        obtain ⟨t', h1, h2, h3, h4, h5, h6, h7⟩ :=
          ih (Store.mk s.rewards (s.missing ++ [(epoch, identity)]))
        have hmono : ∀ e', pairKnown s identity e'
            → pairKnown (Store.mk s.rewards (s.missing ++ [(epoch, identity)])) identity e' :=
          fun e' => pairKnown_of_mem (fun x hx => hx) (fun p hp => List.mem_append_left _ hp)
        refine ⟨(epoch, identity) :: t', by rw [e1]; exact h1, ?_, ?_, ?_, ?_, ?_, ?_⟩
        · rw [e1, h2]
          simp
        · intro p hp
          rcases List.mem_cons.mp hp with rfl | hp'
          · exact ⟨rfl, List.mem_cons_self _ _, hnk⟩
          · obtain ⟨hp1, hp2, hp3⟩ := h3 p hp'
            exact ⟨hp1, List.mem_cons_of_mem _ hp2, fun hk' => hp3 (hmono _ hk')⟩
        · rw [e2]
          intro r hr
          obtain ⟨hp1, hp2, hp3⟩ := h4 r hr
          exact ⟨hp1, List.mem_cons_of_mem _ hp2, fun hk' => hp3 (hmono _ hk')⟩
        · rw [e3]
          intro e he
          rcases List.mem_cons.mp he with rfl | he'
          · exact List.mem_cons_self _ _
          · exact List.mem_cons_of_mem _ (h5 e he')
        · rw [e2]
          intro e he
          rcases List.mem_cons.mp he with rfl | he'
          · exact Or.inr (by simp)
          · refine pairKnown_of_mem ?_ ?_ (h6 e he')
            · exact fun x hx => hx
            · intro p hp
              simp only [List.append_assoc, List.singleton_append] at hp
              exact hp
        · rw [e2]
          intro hnd
          obtain ⟨hne, hndr⟩ := List.nodup_cons.mp hnd
          obtain ⟨g1, g2, g3⟩ := h7 hndr
          refine ⟨g1, ?_, ?_⟩
          · rw [List.map_cons]
            refine List.nodup_cons.mpr ⟨?_, g2⟩
            intro hmem
            obtain ⟨p, hp, hp1⟩ := List.mem_map.mp hmem
            obtain ⟨_, hp2, _⟩ := h3 p hp
            rw [hp1] at hp2
            exact hne hp2
          · intro e he1 he2
            have herest : e ∈ rest := by
              obtain ⟨x, hx, hx1⟩ := List.mem_map.mp he1
              obtain ⟨_, hp2, _⟩ := h4 x hx
              exact hx1 ▸ hp2
            rw [List.map_cons] at he2
            rcases List.mem_cons.mp he2 with heq' | he2'
            · rw [heq'] at herest
              exact hne herest
            · exact g3 e he1 he2'
      · -- fetched: accumulate for batch insert
        have heq := runLoop_cons_some identity resp epoch rest s r hc hg
        have e1 : (runLoop identity resp (epoch :: rest) s).1
            = (runLoop identity resp rest s).1 := by rw [heq]
        have e2 : (runLoop identity resp (epoch :: rest) s).2.1
            = r :: (runLoop identity resp rest s).2.1 := by rw [heq]
        have e3 : (runLoop identity resp (epoch :: rest) s).2.2
            = epoch :: (runLoop identity resp rest s).2.2 := by rw [heq]
        obtain ⟨hr1, hr2⟩ := get_epoch_some hg
        obtain ⟨t, h1, h2, h3, h4, h5, h6, h7⟩ := ih s
        refine ⟨t, by rw [e1]; exact h1, by rw [e1]; exact h2, ?_, ?_, ?_, ?_, ?_⟩
        · intro p hp
          obtain ⟨hp1, hp2, hp3⟩ := h3 p hp
          exact ⟨hp1, List.mem_cons_of_mem _ hp2, hp3⟩
        · rw [e2]
          intro x hx
          rcases List.mem_cons.mp hx with rfl | hx'
          · exact ⟨hr1, by rw [hr2]; exact List.mem_cons_self _ _, by rw [hr2]; exact hnk⟩
          · obtain ⟨hp1, hp2, hp3⟩ := h4 x hx'
            exact ⟨hp1, List.mem_cons_of_mem _ hp2, hp3⟩
        · rw [e3]
          intro e he
          rcases List.mem_cons.mp he with rfl | he'
          · exact List.mem_cons_self _ _
          · exact List.mem_cons_of_mem _ (h5 e he')
        · rw [e2]
          intro e he
          rcases List.mem_cons.mp he with rfl | he'
          · exact Or.inl ⟨r, by simp, hr1, hr2⟩
          · refine pairKnown_of_mem ?_ ?_ (h6 e he')
            · intro x hx
              rcases List.mem_append.mp hx with hx' | hx'
              · exact List.mem_append_left _ hx'
              · exact List.mem_append_right _ (List.mem_cons_of_mem _ hx')
            · exact fun p hp => hp
        · rw [e2]
          intro hnd
          obtain ⟨hne, hndr⟩ := List.nodup_cons.mp hnd
          obtain ⟨g1, g2, g3⟩ := h7 hndr
          refine ⟨?_, g2, ?_⟩
          · rw [List.map_cons]
            refine List.nodup_cons.mpr ⟨?_, g1⟩
            intro hmem
            obtain ⟨x, hx, hx1⟩ := List.mem_map.mp hmem
            obtain ⟨_, hp2, _⟩ := h4 x hx
            rw [hx1, hr2] at hp2
            exact hne hp2
          · intro e he1 he2
            rw [List.map_cons] at he1
            rcases List.mem_cons.mp he1 with heq' | he1'
            · obtain ⟨p, hp, hp1⟩ := List.mem_map.mp he2
              obtain ⟨_, hp2, _⟩ := h3 p hp
              rw [hp1] at hp2
              rw [heq'] at hp2
              rw [hr2] at hp2
              exact hne hp2
            · exact g3 e he1' he2

lemma runLoop_noop (identity : String) (resp : ℤ → Option (List RawValidator)) :
    ∀ (epochs : List ℤ) (s : Store), (∀ e ∈ epochs, pairKnown s identity e) →
      runLoop identity resp epochs s = (s, [], []) := by
  intro epochs
  induction epochs with
  | nil => intro s _; rfl
  | cons epoch rest ih =>
    intro s h
    have hc : check_epoch_exists false s identity epoch = true :=
      (epochExistsQuery_iff s identity epoch).mpr (h epoch (List.mem_cons_self _ _))
    rw [runLoop_cons_known identity resp epoch rest s hc]
    exact ih s (fun e he => h e (List.mem_cons_of_mem _ he))

lemma mem_pyRange {a b z : ℤ} : z ∈ pyRange a b ↔ a ≤ z ∧ z < b := by
  unfold pyRange
  simp only [List.mem_map, List.mem_range]
  constructor
  · rintro ⟨i, hi, rfl⟩
    omega
  · rintro ⟨h1, h2⟩
    exact ⟨(z - a).toNat, by omega, by omega⟩

lemma pyRange_pairwise (a b : ℤ) : List.Pairwise (· < ·) (pyRange a b) := by
  unfold pyRange
  exact List.Pairwise.map _ (fun i j h => by omega) (List.pairwise_lt_range _)

lemma pyRange_nodup (a b : ℤ) : (pyRange a b).Nodup :=
  (pyRange_pairwise a b).imp (fun h => ne_of_lt h)

lemma runDriver_ok (identity : String) (resp : ℤ → Option (List RawValidator)) (E : ℤ)
    (s : Store) (hE : E ≠ 0) :
    runDriver identity resp (some E) s
      = Except.ok (bulkInsert (runLoop identity resp (driverEpochs E) s).1
          (runLoop identity resp (driverEpochs E) s).2.1,
        (runLoop identity resp (driverEpochs E) s).2.2) := by
  have h0 : runDriver identity resp (some E) s
      = if E = 0 then Except.error "Unable to determine current solana epoch"
        else Except.ok (bulkInsert (runLoop identity resp (driverEpochs E) s).1
          (runLoop identity resp (driverEpochs E) s).2.1,
        (runLoop identity resp (driverEpochs E) s).2.2) := rfl
  rw [h0, if_neg hE]

/-- C2: when the Epoch Oracle reports a (nonzero) current epoch E, the driver iterates exactly the inclusive range [600, E-1] in ascending order, every fetched epoch lies in that range, and epoch E itself is never queried. -/
theorem processing_range_correct (identity : String)
    (resp : ℤ → Option (List RawValidator)) (E : ℤ) (s s' : Store) (fetched : List ℤ)
    (hE : E ≠ 0)
    (h : runDriver identity resp (some E) s = Except.ok (s', fetched)) :
    (∀ z : ℤ, z ∈ driverEpochs E ↔ 600 ≤ z ∧ z ≤ E - 1)
    ∧ List.Pairwise (· < ·) (driverEpochs E)
    ∧ (∀ e ∈ fetched, e ∈ driverEpochs E)
    ∧ E ∉ driverEpochs E
    ∧ E ∉ fetched := by
  have hmem : ∀ z : ℤ, z ∈ driverEpochs E ↔ 600 ≤ z ∧ z ≤ E - 1 := by
    intro z
    unfold driverEpochs
    rw [mem_pyRange]
    omega
  have hnotE : E ∉ driverEpochs E := by
    rw [hmem]
    omega
  rw [runDriver_ok identity resp E s hE] at h
  injection h with h
  have hf : (runLoop identity resp (driverEpochs E) s).2.2 = fetched := by
    simpa using congrArg Prod.snd h
  obtain ⟨t, g1, g2, g3, g4, g5, g6, g7⟩ := runLoop_spec identity resp (driverEpochs E) s
  refine ⟨hmem, ?_, ?_, hnotE, ?_⟩
  · unfold driverEpochs
    exact pyRange_pairwise _ _
  · intro e he
    rw [← hf] at he
    exact g5 e he
  · intro hEf
    rw [← hf] at hEf
    exact hnotE (g5 E hEf)

/-- C2 witness: the range facts at the concrete oracle answer E = 601. -/
theorem processing_range_correct_witness :
    (∀ z : ℤ, z ∈ driverEpochs 601 ↔ 600 ≤ z ∧ z ≤ 601 - 1)
    ∧ List.Pairwise (· < ·) (driverEpochs 601)
    ∧ (∀ e ∈ ([600] : List ℤ), e ∈ driverEpochs 601)
    ∧ (601 : ℤ) ∉ driverEpochs 601
    ∧ (601 : ℤ) ∉ ([600] : List ℤ) :=
  processing_range_correct "V" (fun _ => none) 601 (Store.mk [] [])
    (Store.mk [] [(600, "V")]) [600] (by norm_num) rfl

/-- C8: check_epoch_exists returns false on any internal query failure instead of propagating it, and on success returns true iff a row for (identity, epoch) is in the rewards table or the missing_rewards table. -/
theorem check_epoch_exists_spec (s : Store) (identity : String) (epoch : ℤ) :
    check_epoch_exists true s identity epoch = false
    ∧ (check_epoch_exists false s identity epoch = true ↔ pairKnown s identity epoch) :=
  ⟨rfl, epochExistsQuery_iff s identity epoch⟩

/-- C9: an oracle answer of 0 is treated identically to an absent answer and aborts the run (the fatality test is on falsiness), while a nonzero answer such as 1 does not abort. -/
theorem zero_epoch_treated_as_absent (identity : String)
    (resp : ℤ → Option (List RawValidator)) (s : Store) :
    runDriver identity resp (some 0) s = runDriver identity resp none s
    ∧ runDriver identity resp (some 0) s
        = Except.error "Unable to determine current solana epoch"
    ∧ ∃ out, runDriver identity resp (some 1) s = Except.ok out := by
  refine ⟨rfl, rfl, ⟨_, runDriver_ok identity resp 1 s (by norm_num)⟩⟩

/-- C3: running the driver twice over the same range with the same store and the same upstream responses leaves the store unchanged the second time (hence no duplicate rows in either table, given a duplicate-free start), produces an identical CSV, and the second run fetches no epoch at all. -/
theorem driver_idempotent (identity : String) (resp : ℤ → Option (List RawValidator))
    (E : ℤ) (s s₁ s₂ : Store) (f₁ f₂ : List ℤ)
    (hE : E ≠ 0) (hnd : noDupPairs s)
    (h1 : runDriver identity resp (some E) s = Except.ok (s₁, f₁))
    (h2 : runDriver identity resp (some E) s₁ = Except.ok (s₂, f₂)) :
    s₂ = s₁ ∧ f₂ = [] ∧ export_csv s₂ identity = export_csv s₁ identity
    ∧ noDupPairs s₁ ∧ noDupPairs s₂ := by
  rw [runDriver_ok identity resp E s hE] at h1
  injection h1 with h1
  have hs₁ : s₁ = bulkInsert (runLoop identity resp (driverEpochs E) s).1
      (runLoop identity resp (driverEpochs E) s).2.1 := by
    simpa using (congrArg Prod.fst h1).symm
  obtain ⟨t, g1, g2, g3, g4, g5, g6, g7⟩ := runLoop_spec identity resp (driverEpochs E) s
  have hs₁' : s₁ = Store.mk
      (s.rewards ++ (runLoop identity resp (driverEpochs E) s).2.1) (s.missing ++ t) := by
    rw [hs₁]
    unfold bulkInsert
    rw [g1, g2]
  have hknown : ∀ e ∈ driverEpochs E, pairKnown s₁ identity e := by
    intro e he
    rw [hs₁']
    exact g6 e he
  have hloop2 : runLoop identity resp (driverEpochs E) s₁ = (s₁, [], []) :=
    runLoop_noop identity resp (driverEpochs E) s₁ hknown
  rw [runDriver_ok identity resp E s₁ hE, hloop2] at h2
  injection h2 with h2
  have hs₂ : s₂ = bulkInsert s₁ [] := by
    simpa using (congrArg Prod.fst h2).symm
  have hseq : s₂ = s₁ := by
    rw [hs₂]
    unfold bulkInsert
    rw [List.append_nil]
  have hfeq : f₂ = [] := by
    simpa using (congrArg Prod.snd h2).symm
  have hepochsnd : (driverEpochs E).Nodup := by
    unfold driverEpochs
    exact pyRange_nodup _ _
  obtain ⟨n1, n2, n3⟩ := g7 hepochsnd
  have hnd₁ : noDupPairs s₁ := by
    rw [hs₁']
    constructor
    · show ((s.rewards ++ (runLoop identity resp (driverEpochs E) s).2.1).map
        (fun r => (r.epoch, r.identity))).Nodup
      rw [List.map_append]
      refine List.Nodup.append hnd.1 ?_ ?_
      · have hmm : (runLoop identity resp (driverEpochs E) s).2.1.map (fun r => r.epoch)
            = ((runLoop identity resp (driverEpochs E) s).2.1.map
                (fun r => (r.epoch, r.identity))).map Prod.fst := by
          rw [List.map_map]
          rfl
        rw [hmm] at n1
        exact n1.of_map
      · intro a ha1 ha2
        obtain ⟨x, hx, hx1⟩ := List.mem_map.mp ha1
        obtain ⟨y, hy, hy1⟩ := List.mem_map.mp ha2
        obtain ⟨hq1, _, hq3⟩ := g4 y hy
        have heq2 : (x.epoch, x.identity) = (y.epoch, y.identity) := hx1.trans hy1.symm
        have hid : x.identity = y.identity := by
          simpa using congrArg Prod.snd heq2
        have hep : x.epoch = y.epoch := by
          simpa using congrArg Prod.fst heq2
        apply hq3
        left
        exact ⟨x, hx, hid.trans hq1, hep⟩
    · show (s.missing ++ t).Nodup
      refine List.Nodup.append hnd.2 ?_ ?_
      · exact n2.of_map
      · intro p hp1 hp2
        obtain ⟨hq1, _, hq3⟩ := g3 p hp2
        apply hq3
        right
        have hpe : (p.1, identity) = p := by
          rw [← hq1]
        rw [hpe]
        exact hp1
  exact ⟨hseq, hfeq, by rw [hseq], hnd₁, by rw [hseq]; exact hnd₁⟩

/-- C3 witness: idempotence at a concrete one-epoch run. -/
theorem driver_idempotent_witness :
    (Store.mk [] [((600 : ℤ), "V")]) = (Store.mk [] [((600 : ℤ), "V")])
    ∧ ([] : List ℤ) = []
    ∧ export_csv (Store.mk [] [((600 : ℤ), "V")]) "V"
        = export_csv (Store.mk [] [((600 : ℤ), "V")]) "V"
    ∧ noDupPairs (Store.mk [] [((600 : ℤ), "V")])
    ∧ noDupPairs (Store.mk [] [((600 : ℤ), "V")]) :=
  driver_idempotent "V" (fun _ => none) 601 (Store.mk [] [])
    (Store.mk [] [((600 : ℤ), "V")]) (Store.mk [] [((600 : ℤ), "V")]) [600] []
    (by norm_num) ⟨by simp, by simp⟩ rfl rfl

lemma applyRun_preserves (s : Store) (p : RunParams) (h : mutexInv s) :
    mutexInv (applyRun s p)
    ∧ (∃ a, (applyRun s p).rewards = s.rewards ++ a)
    ∧ (∃ b, (applyRun s p).missing = s.missing ++ b) := by
  rcases hE0 : p.currentEpoch with _ | E
  · have hid : applyRun s p = s := by
      unfold applyRun
      rw [hE0]
      rfl
    rw [hid]
    exact ⟨h, ⟨[], by simp⟩, ⟨[], by simp⟩⟩
  · by_cases hEz : E = 0
    · have hid : applyRun s p = s := by
        unfold applyRun
        rw [hE0, hEz]
        rfl
      rw [hid]
      exact ⟨h, ⟨[], by simp⟩, ⟨[], by simp⟩⟩
    · have happ : applyRun s p
          = bulkInsert (runLoop p.identity p.responses (driverEpochs E) s).1
              (runLoop p.identity p.responses (driverEpochs E) s).2.1 := by
        unfold applyRun
        rw [hE0, runDriver_ok p.identity p.responses E s hEz]
      obtain ⟨t, g1, g2, g3, g4, g5, g6, g7⟩ :=
        runLoop_spec p.identity p.responses (driverEpochs E) s
      have hshape : applyRun s p = Store.mk
          (s.rewards ++ (runLoop p.identity p.responses (driverEpochs E) s).2.1)
          (s.missing ++ t) := by
        rw [happ]
        unfold bulkInsert
        rw [g1, g2]
      obtain ⟨n1, n2, n3⟩ := g7 (by unfold driverEpochs; exact pyRange_nodup _ _)
      refine ⟨?_, ⟨_, by rw [hshape]⟩, ⟨_, by rw [hshape]⟩⟩
      rw [hshape]
      intro e id' hrew hmiss
      unfold pairInRewards at hrew
      obtain ⟨r, hr, hri, hre⟩ := hrew
      rcases List.mem_append.mp hr with hr' | hr'
      · rcases List.mem_append.mp hmiss with hm' | hm'
        · exact h e id' ⟨r, hr', hri, hre⟩ hm'
        · obtain ⟨hq1, _, hq3⟩ := g3 (e, id') hm'
          apply hq3
          left
          exact ⟨r, hr', hri.trans hq1, hre⟩
      · obtain ⟨hq1, hq2, hq3⟩ := g4 r hr'
        rcases List.mem_append.mp hmiss with hm' | hm'
        · apply hq3
          right
          have hpe : (r.epoch, p.identity) = (e, id') := by
            rw [hre, ← hq1, hri]
          rw [hpe]
          exact hm'
        · apply n3 r.epoch
          · exact List.mem_map.mpr ⟨r, hr', rfl⟩
          · refine List.mem_map.mpr ⟨(e, id'), hm', ?_⟩
            exact hre.symm

/-- C4: over any sequence of driver runs starting from a store where no (epoch, identity) pair is in both tables, no pair is ever in both tables, and both tables only ever grow by appending (rows are never updated or deleted). -/
theorem mutual_exclusion_append_only (runs : List RunParams) (s : Store)
    (h : mutexInv s) :
    mutexInv (runs.foldl applyRun s)
    ∧ (∃ a, (runs.foldl applyRun s).rewards = s.rewards ++ a)
    ∧ (∃ b, (runs.foldl applyRun s).missing = s.missing ++ b) := by
  induction runs generalizing s with
  | nil => exact ⟨h, ⟨[], by simp⟩, ⟨[], by simp⟩⟩
  | cons p rest ih =>
    obtain ⟨m1, ⟨a1, e1⟩, ⟨b1, f1⟩⟩ := applyRun_preserves s p h
    obtain ⟨m2, ⟨a2, e2⟩, ⟨b2, f2⟩⟩ := ih (applyRun s p) m1
    rw [List.foldl_cons]
    refine ⟨m2, ⟨a1 ++ a2, ?_⟩, ⟨b1 ++ b2, ?_⟩⟩
    · rw [e2, e1, List.append_assoc]
    · rw [f2, f1, List.append_assoc]

/-- C4 witness: mutual exclusion and append-only growth for one concrete run from the empty store. -/
theorem mutual_exclusion_append_only_witness :
    mutexInv (List.foldl applyRun (Store.mk [] [])
      [RunParams.mk "V" (fun _ => none) (some 601)])
    ∧ (∃ a, (List.foldl applyRun (Store.mk [] [])
        [RunParams.mk "V" (fun _ => none) (some 601)]).rewards
          = (Store.mk [] []).rewards ++ a)
    ∧ (∃ b, (List.foldl applyRun (Store.mk [] [])
        [RunParams.mk "V" (fun _ => none) (some 601)]).missing
          = (Store.mk [] []).missing ++ b) :=
  mutual_exclusion_append_only [RunParams.mk "V" (fun _ => none) (some 601)]
    (Store.mk [] [])
    (fun _ _ hr _ => absurd hr.choose_spec.1 (List.not_mem_nil _))
